import Mathlib

/-!
Shallow embedding of `contracts/transmuter/src/moving_average/compressed_division.rs`
(and the error taxonomy of `contracts/transmuter/src/error.rs`).

Modelling conventions:
* `cosmwasm_std::Timestamp` carries a `u64` nanosecond count; timestamps are
  embedded as `Nat`, with `< 2^64` hypotheses where a bound matters.
* `cosmwasm_std::Uint64` arithmetic is embedded as `Nat` arithmetic with the
  explicit range checks that `checked_add` / `checked_sub` perform.
* `cosmwasm_std::Decimal` is a fixed-point number stored as `Uint128` atomics
  with 18 fractional decimal digits; it is embedded as the `Nat` of its
  atomics (so the real value is `atomics / 10^18`), with every checked
  operation performing the same floor-rounding and `< 2^128` range check as
  the library: `checked_add` adds atomics, `checked_mul` computes
  `a*b/10^18` via a full-width product, `checked_div` and
  `checked_from_ratio` compute `num*10^18/den` and distinguish overflow from
  division by zero exactly as `CheckedFromRatioError` does.
* Rust `Result<T, ContractError>` becomes `Except ContractError T`; the `?`
  operator becomes monadic bind, preserving the source's evaluation order of
  the fallible operations.
* The helper constructors `ContractError::change_limit_error` and
  `ContractError::calculation_error` are declared outside the provided
  sources; `change_limit_error` is modelled from the spec as producing the
  distinct temporal-ordering error variant carrying its message, and the
  underlying arithmetic error variants are propagated directly where
  `calculation_error` would wrap them (no claim depends on the wrapped
  shape).
-/

/-- Number of atomics in one unit of `Decimal`: `10^18`. -/
def decimalFractional : Nat := 10 ^ 18

/-- Exclusive upper bound of `Uint128`. -/
def uint128Bound : Nat := 2 ^ 128

/-- Exclusive upper bound of `Uint64`. -/
def uint64Bound : Nat := 2 ^ 64

/-- Which checked operation overflowed, mirroring `cosmwasm_std::OverflowOperation`. -/
inductive OverflowOperation where
  | add
  | sub
  | mul
deriving DecidableEq

/-- The error taxonomy of `error.rs` restricted to the variants this module can
produce, plus the spec-modelled `change_limit_error` and the `StdError` /
`CheckedFromRatioError` conversions that `#[from]` performs. -/
inductive ContractError where
  /-- Variant `ContractError::Std(StdError::not_found(label))` -/
  | stdNotFound (label : String)
  /-- Modelled from the spec: `ContractError::change_limit_error(msg)` is the
  distinct temporal-ordering (`ChangeLimitError`) error; its constructor is not
  among the provided sources. -/
  | changeLimitError (msg : String)
  /-- Variant `ContractError::OverflowError` -/
  | overflowError (op : OverflowOperation)
  /-- Variant `ContractError::CheckedFromRatioError(CheckedFromRatioError::Overflow)` -/
  | checkedFromRatioOverflow
  /-- Variant `ContractError::CheckedFromRatioError(CheckedFromRatioError::DivideByZero)` -/
  | checkedFromRatioDivideByZero
  /-- Variant `DecimalRangeExceeded` from `Decimal::from_atomics` -/
  | decimalRangeExceeded
deriving DecidableEq

/-- Embeds `Uint64::checked_sub`: errors with `OverflowError` (operation `Sub`) on underflow. -/
def u64CheckedSub (a b : Nat) : Except ContractError Nat :=
  if b ≤ a then .ok (a - b) else .error (.overflowError .sub)

/-- Embeds `Uint64::checked_add`: errors with `OverflowError` (operation `Add`) when the
sum exceeds `u64::MAX`. -/
def u64CheckedAdd (a b : Nat) : Except ContractError Nat :=
  if a + b < uint64Bound then .ok (a + b) else .error (.overflowError .add)

/-- Embeds `Decimal::checked_add` on atomics: errors with `OverflowError` when the sum
exceeds `Uint128::MAX`. -/
def decCheckedAdd (a b : Nat) : Except ContractError Nat :=
  if a + b < uint128Bound then .ok (a + b) else .error (.overflowError .add)

/-- Embeds `Decimal::checked_mul` on atomics: full-width product divided by `10^18`
(floor), errors with `OverflowError` when the result exceeds `Uint128::MAX`. -/
def decCheckedMul (a b : Nat) : Except ContractError Nat :=
  if a * b / decimalFractional < uint128Bound then .ok (a * b / decimalFractional)
  else .error (.overflowError .mul)

/-- Embeds `Decimal::checked_from_ratio num den` with both arguments given as plain
integers: atomics `num * 10^18 / den` (floor), distinguishing division by zero
from overflow as `CheckedFromRatioError` does. -/
def decCheckedFromRatio (num den : Nat) : Except ContractError Nat :=
  if den = 0 then .error .checkedFromRatioDivideByZero
  else if num * decimalFractional / den < uint128Bound then
    .ok (num * decimalFractional / den)
  else .error .checkedFromRatioOverflow

/-- Embeds `Decimal::checked_div` on atomics: the library implements it as
`checked_from_ratio(self.numerator(), other.numerator())`. -/
def decCheckedDiv (a b : Nat) : Except ContractError Nat :=
  decCheckedFromRatio a b

/-- Embeds `Decimal::from_atomics(n, 0)` for a `Uint64` argument: the value `n`, i.e.
atomics `n * 10^18`, errors with `DecimalRangeExceeded` when out of range. -/
def decFromAtomicsWhole (n : Nat) : Except ContractError Nat :=
  if n * decimalFractional < uint128Bound then .ok (n * decimalFractional)
  else .error .decimalRangeExceeded

namespace v2

/-- Struct `v2::CompressedDivision`: a compressed time bucket. `started_at` and
`updated_at` are `Timestamp` nanosecond counts; `latest_value` and `cumsum`
are `Decimal` atomics. -/
structure CompressedDivision where
  started_at : Nat
  updated_at : Nat
  latest_value : Nat
  cumsum : Nat
deriving DecidableEq

namespace CompressedDivision

/-- Embeds `v2::CompressedDivision::new`: `ensure!(updated_at >= started_at)`, then
`cumsum = prev_value.checked_mul(Decimal::checked_from_ratio(updated_at - started_at, 1))`. -/
def new (started_at updated_at value prev_value : Nat) :
    Except ContractError CompressedDivision :=
  if started_at ≤ updated_at then do
    let elapsed_time ← u64CheckedSub updated_at started_at
    let ratio ← decCheckedFromRatio elapsed_time 1
    let cumsum ← decCheckedMul prev_value ratio
    .ok { started_at, updated_at, latest_value := value, cumsum }
  else
    .error (.changeLimitError "`updated_at` must be greater than or equal to `started_at`")

/-- Embeds `v2::CompressedDivision::update`: folds the open interval into `cumsum`
and opens a new interval with `value`. -/
def update (self : CompressedDivision) (updated_at value : Nat) :
    Except ContractError CompressedDivision := do
  let elapsed_time ← u64CheckedSub updated_at self.updated_at
  let ratio ← decCheckedFromRatio elapsed_time 1
  let weighted ← decCheckedMul self.latest_value ratio
  let cumsum ← decCheckedAdd self.cumsum weighted
  .ok { started_at := self.started_at, updated_at, latest_value := value, cumsum }

/-- Embeds `v2::CompressedDivision::latest_value_elapsed_time`: elapsed time of the
still-open latest value, capped at the division's end. -/
def latest_value_elapsed_time (self : CompressedDivision)
    (division_size block_time : Nat) : Except ContractError Nat := do
  let ended_at ← u64CheckedAdd self.started_at division_size
  if block_time > ended_at then
    u64CheckedSub ended_at self.updated_at
  else
    u64CheckedSub block_time self.updated_at

/-- Embeds `v2::CompressedDivision::weighted_latest_value`:
`latest_value * latest_value_elapsed_time`. -/
def weighted_latest_value (self : CompressedDivision)
    (division_size block_time : Nat) : Except ContractError Nat := do
  let elapsed_time ← self.latest_value_elapsed_time division_size block_time
  let ratio ← decCheckedFromRatio elapsed_time 1
  decCheckedMul self.latest_value ratio

/-- Embeds `v2::CompressedDivision::cumsum_at_block_time`:
`cumsum + weighted_latest_value`. -/
def cumsum_at_block_time (self : CompressedDivision)
    (division_size block_time : Nat) : Except ContractError Nat := do
  let weighted ← self.weighted_latest_value division_size block_time
  decCheckedAdd self.cumsum weighted

/-- The first-division special case of `v2::CompressedDivision::average`
(the body of the `Some(division)` arm, lines 162–211): the portion of the
first division that falls inside the window. -/
def firstDivisionCumsum (division : CompressedDivision)
    (division_size window_started_at block_time : Nat) : Except ContractError Nat := do
  let division_started_at := division.started_at
  let ended_at ← u64CheckedAdd division_started_at division_size
  let past_window ← u64CheckedSub ended_at window_started_at
  let remaining_division_size := min past_window division_size
  let latest_value_elapsed_time ←
    division.latest_value_elapsed_time division_size block_time
  if remaining_division_size > latest_value_elapsed_time then do
    let current_cumsum_weight ←
      u64CheckedSub division.updated_at division.started_at
    let cumsum ←
      if window_started_at > division_started_at then do
        let new_cumsum_weight ←
          u64CheckedSub remaining_division_size latest_value_elapsed_time
        let current_ratio ← decCheckedFromRatio current_cumsum_weight 1
        let division_average_before_latest_update ←
          decCheckedDiv division.cumsum current_ratio
        let new_ratio ← decCheckedFromRatio new_cumsum_weight 1
        decCheckedMul division_average_before_latest_update new_ratio
      else
        .ok division.cumsum
    let weighted ← division.weighted_latest_value division_size block_time
    decCheckedAdd cumsum weighted
  else do
    let ratio ← decCheckedFromRatio remaining_division_size 1
    decCheckedMul division.latest_value ratio

/-- The accumulation loop of `average` (lines 216–219): add each remaining
division's `cumsum_at_block_time` into the running cumsum. -/
def restCumsum (rest : List CompressedDivision)
    (division_size block_time cumsum : Nat) : Except ContractError Nat :=
  rest.foldlM
    (fun acc division => do
      let c ← division.cumsum_at_block_time division_size block_time
      decCheckedAdd acc c)
    cumsum

/-- All window contributions of a non-empty division sequence: the
first-division special case followed by the accumulation loop. -/
def contributions (division : CompressedDivision) (rest : List CompressedDivision)
    (division_size window_started_at block_time : Nat) : Except ContractError Nat := do
  let cumsum ← firstDivisionCumsum division division_size window_started_at block_time
  restCumsum rest division_size block_time cumsum

/-- Embeds `v2::CompressedDivision::average` over a list of divisions (the source's
iterator, oldest first). -/
def average (divisions : List CompressedDivision)
    (division_size window_size block_time : Nat) : Except ContractError Nat := do
  let window_started_at ← u64CheckedSub block_time window_size
  match divisions with
  | [] => .error (.stdNotFound "division")
  | division :: rest => do
    let cumsum ← contributions division rest division_size window_started_at block_time
    let started_at := max window_started_at division.started_at
    let total_elapsed_time ← u64CheckedSub block_time started_at
    let ratio ← decCheckedFromRatio total_elapsed_time 1
    decCheckedDiv cumsum ratio

end CompressedDivision

end v2

/-- Struct of the public (non-`v2`) `CompressedDivision`: a count-based aggregate
with a `Timestamp` start, a `Decimal` cumulative sum (atomics) and a `Uint64`
sample count. -/
structure CompressedDivision where
  start_time : Nat
  cumsum : Nat
  n : Nat
deriving DecidableEq

namespace CompressedDivision

/-- Embeds `CompressedDivision::start`: one sample, `cumsum = value`, `n = 1`. -/
def start (start_time value : Nat) : CompressedDivision :=
  { start_time, cumsum := value, n := 1 }

/-- Embeds `CompressedDivision::accum`: checked-add the value into `cumsum` and
checked-increment `n`. -/
def accum (self : CompressedDivision) (value : Nat) :
    Except ContractError CompressedDivision := do
  let cumsum ← decCheckedAdd self.cumsum value
  let n ← u64CheckedAdd self.n 1
  .ok { start_time := self.start_time, cumsum, n }

/-- Embeds `CompressedDivision::elasped_time` (sic): checked time since `start_time`. -/
def elasped_time (self : CompressedDivision) (block_time : Nat) :
    Except ContractError Nat :=
  u64CheckedSub block_time self.start_time

/-- Embeds `CompressedDivision::average`: `cumsum / Decimal::from_atomics(n, 0)`. -/
def average (self : CompressedDivision) : Except ContractError Nat := do
  let n ← decFromAtomicsWhole self.n
  decCheckedDiv self.cumsum n

end CompressedDivision

/-! Helper lemmas about the monadic plumbing and the checked operations. -/

theorem exceptBind_ok {α β : Type} (a : α) (f : α → Except ContractError β) :
    (Except.ok a : Except ContractError α) >>= f = f a := rfl

theorem exceptBind_error {α β : Type} (e : ContractError) (f : α → Except ContractError β) :
    (Except.error e : Except ContractError α) >>= f = (.error e : Except ContractError β) := rfl

theorem u64CheckedSub_eq_ok {a b : Nat} (h : b ≤ a) :
    u64CheckedSub a b = .ok (a - b) := by
  simp [u64CheckedSub, h]

theorem u64CheckedSub_eq_error {a b : Nat} (h : a < b) :
    u64CheckedSub a b = .error (.overflowError .sub) := by
  simp [u64CheckedSub, Nat.not_le.mpr h]

theorem u64CheckedAdd_eq_ok {a b : Nat} (h : a + b < uint64Bound) :
    u64CheckedAdd a b = .ok (a + b) := by
  simp [u64CheckedAdd, h]

theorem decCheckedAdd_eq_ok {a b : Nat} (h : a + b < uint128Bound) :
    decCheckedAdd a b = .ok (a + b) := by
  simp [decCheckedAdd, h]

theorem decimalFractional_pos : 0 < decimalFractional := by
  simp [decimalFractional]

/-- With denominator 1 and a `u64`-sized numerator, `checked_from_ratio` is the
exact whole number `n`, i.e. atomics `n * 10^18`. -/
theorem decCheckedFromRatio_one_eq_ok {n : Nat} (h : n < uint64Bound) :
    decCheckedFromRatio n 1 = .ok (n * decimalFractional) := by
  have hb : n * decimalFractional < uint128Bound := by
    calc n * decimalFractional < uint64Bound * decimalFractional :=
          (Nat.mul_lt_mul_right decimalFractional_pos).mpr h
      _ ≤ uint128Bound := by norm_num [uint64Bound, decimalFractional, uint128Bound]
  simp [decCheckedFromRatio, Nat.div_one, hb]

/-- Multiplying a `Decimal` by the exact whole number `b` is the exact product
of atomics by `b`. -/
theorem decCheckedMul_whole_eq_ok {a b : Nat} (h : a * b < uint128Bound) :
    decCheckedMul a (b * decimalFractional) = .ok (a * b) := by
  have key : a * (b * decimalFractional) / decimalFractional = a * b := by
    rw [← Nat.mul_assoc, Nat.mul_div_cancel _ decimalFractional_pos]
  simp [decCheckedMul, key, h]

theorem decCheckedMul_whole_eq_error {a b : Nat} (h : uint128Bound ≤ a * b) :
    decCheckedMul a (b * decimalFractional) = .error (.overflowError .mul) := by
  have key : a * (b * decimalFractional) / decimalFractional = a * b := by
    rw [← Nat.mul_assoc, Nat.mul_div_cancel _ decimalFractional_pos]
  simp [decCheckedMul, key, Nat.not_lt.mpr h]

/-- Dividing the exact product `p * e` by the exact whole number `e` recovers `p`. -/
theorem decCheckedFromRatio_mul_cancel {p e : Nat} (he : 0 < e) (hp : p < uint128Bound) :
    decCheckedFromRatio (p * e) (e * decimalFractional) = .ok p := by
  have hepos : 0 < e * decimalFractional := Nat.mul_pos he decimalFractional_pos
  have hden : e * decimalFractional ≠ 0 := Nat.pos_iff_ne_zero.mp hepos
  have key : p * e * decimalFractional / (e * decimalFractional) = p := by
    rw [Nat.mul_assoc, Nat.mul_div_cancel _ hepos]
  simp [decCheckedFromRatio, hden, key, hp]

/-- Shared success-shape lemma for `v2::CompressedDivision::new`: under the
temporal precondition and the `u64` / `Uint128` range conditions it returns
the division with `cumsum = prev_value * elapsed` exactly. -/
theorem new_eq_ok (s u v p : Nat) (hsu : s ≤ u) (hu : u < uint64Bound)
    (hp : p * (u - s) < uint128Bound) :
    v2.CompressedDivision.new s u v p = .ok ⟨s, u, v, p * (u - s)⟩ := by
  rw [v2.CompressedDivision.new, if_pos hsu,
    u64CheckedSub_eq_ok hsu, exceptBind_ok,
    decCheckedFromRatio_one_eq_ok (Nat.lt_of_le_of_lt (Nat.sub_le u s) hu), exceptBind_ok,
    decCheckedMul_whole_eq_ok hp, exceptBind_ok]

/-- C1: for the single division constructed by `new(started_at=1100ns,
updated_at=1110ns, value=20%, prev_value=10%)`, `average` over the one-element
sequence with `division_size=100`, `window_size=1000` and `block_time=1150ns`
returns exactly `(10% * 10 + 20% * 40) / 50` (as `Decimal` atomics:
`0.18`, i.e. `180000000000000000`). -/
theorem claim_C1_single_division_scenario :
    (v2.CompressedDivision.new 1100 1110 200000000000000000 100000000000000000).bind
      (fun d => v2.CompressedDivision.average [d] 100 1000 1150) =
    .ok ((100000000000000000 * 10 + 200000000000000000 * 40) * 10 ^ 18 /
      (50 * 10 ^ 18)) := by
  rfl

/-- C2: for every `started_at`, `updated_at`, `value`, `prev_value` (with
`updated_at` a valid `u64` timestamp): if `updated_at < started_at` the
constructor fails with the temporal-ordering (`ChangeLimitError`) error;
otherwise it returns a division with the given instants, `latest_value =
value` and `cumsum = prev_value * (updated_at - started_at)` in nanoseconds
(in particular `cumsum = 0` when the instants coincide), any overflow of that
product being surfaced as an arithmetic-overflow error. -/
theorem claim_C2_new_spec (s u v p : Nat) (hu : u < uint64Bound) :
    (u < s →
      v2.CompressedDivision.new s u v p =
        .error (.changeLimitError
          "`updated_at` must be greater than or equal to `started_at`")) ∧
    (s ≤ u → p * (u - s) < uint128Bound →
      v2.CompressedDivision.new s u v p = .ok ⟨s, u, v, p * (u - s)⟩) ∧
    (s ≤ u → uint128Bound ≤ p * (u - s) →
      v2.CompressedDivision.new s u v p = .error (.overflowError .mul)) := by
  refine ⟨fun h => ?_, fun h hp => new_eq_ok s u v p h hu hp, fun h hp => ?_⟩
  · rw [v2.CompressedDivision.new, if_neg (by omega)]
  · rw [v2.CompressedDivision.new, if_pos h,
      u64CheckedSub_eq_ok h, exceptBind_ok,
      decCheckedFromRatio_one_eq_ok (Nat.lt_of_le_of_lt (Nat.sub_le u s) hu), exceptBind_ok,
      decCheckedMul_whole_eq_error hp, exceptBind_error]

/-- Witness for C2: the constructor rejects `updated_at = 89 < 90 = started_at`,
and at `started_at = 1100`, `updated_at = 1110`, `value = 20%`,
`prev_value = 10%` it yields `cumsum = 10% * 10`. -/
theorem claim_C2_new_spec_witness :
    v2.CompressedDivision.new 90 89 1 1 =
      .error (.changeLimitError
        "`updated_at` must be greater than or equal to `started_at`") ∧
    v2.CompressedDivision.new 1100 1110 200000000000000000 100000000000000000 =
      .ok ⟨1100, 1110, 200000000000000000, 100000000000000000 * 10⟩ :=
  ⟨(claim_C2_new_spec 90 89 1 1 (by decide)).1 (by decide),
   (claim_C2_new_spec 1100 1110 200000000000000000 100000000000000000
      (by decide)).2.1 (by decide) (by decide)⟩

/-- Counterexample to C3 as stated: a division constructed through the public
constructor with `latest_value = 10^20` (atomics `10^38 < 2^128`), updated 10ns
later, makes the checked multiplication overflow, so `update` returns an error
rather than a division — the claim's unconditional "returns a Division" fails. -/
theorem claim_C3_counterexample :
    (v2.CompressedDivision.new 0 0 (10 ^ 38) 0).bind
      (fun d => d.update 10 0) = .error (.overflowError .mul) := by
  rfl

/-- C3 (amended): for every division `d`, value `v` and `t ≥ d.updated_at`
(with `t` a valid `u64` timestamp), provided the checked multiplication
`latest_value * (t - updated_at)` and the checked addition into `cumsum` stay
within the `Decimal` range, `update` returns the division with
`cumsum + latest_value * (t - updated_at)`, `latest_value = v`, `started_at`
unchanged and `updated_at = t`; in particular `t = d.updated_at` leaves
`cumsum` unchanged and only replaces `latest_value`. -/
theorem claim_C3_update_spec (s u l c t v : Nat) (ht : u ≤ t) (htb : t < uint64Bound)
    (hmul : l * (t - u) < uint128Bound) (hadd : c + l * (t - u) < uint128Bound) :
    v2.CompressedDivision.update ⟨s, u, l, c⟩ t v =
      .ok ⟨s, t, v, c + l * (t - u)⟩ := by
  rw [v2.CompressedDivision.update]
  rw [show (⟨s, u, l, c⟩ : v2.CompressedDivision).updated_at = u from rfl,
    show (⟨s, u, l, c⟩ : v2.CompressedDivision).latest_value = l from rfl,
    show (⟨s, u, l, c⟩ : v2.CompressedDivision).cumsum = c from rfl,
    show (⟨s, u, l, c⟩ : v2.CompressedDivision).started_at = s from rfl,
    u64CheckedSub_eq_ok ht, exceptBind_ok,
    decCheckedFromRatio_one_eq_ok (Nat.lt_of_le_of_lt (Nat.sub_le t u) htb), exceptBind_ok,
    decCheckedMul_whole_eq_ok hmul, exceptBind_ok,
    decCheckedAdd_eq_ok hadd, exceptBind_ok]

/-- Witness for the amended C3: updating the division of the repository's own
`update` test (constructed at 90ns/100ns with `prev_value = 10%`,
`latest_value = 20%`) at 120ns folds `20% * 20` into `cumsum`. -/
theorem claim_C3_update_spec_witness :
    v2.CompressedDivision.update
        ⟨90, 100, 200000000000000000, 1000000000000000000⟩ 120 200000000000000000 =
      .ok ⟨90, 120, 200000000000000000,
        1000000000000000000 + 200000000000000000 * 20⟩ :=
  claim_C3_update_spec 90 100 200000000000000000 1000000000000000000 120
    200000000000000000 (by decide) (by decide) (by decide) (by decide)

/-- Counterexample to C4 as stated: on an empty sequence with
`window_size = 1000 > 500 = block_time`, the window-start subtraction (which
the code performs before the emptiness check) fails first, so the error is an
arithmetic underflow, not the "no data" (not-found) error. -/
theorem claim_C4_counterexample :
    v2.CompressedDivision.average [] 100 1000 500 = .error (.overflowError .sub) := by
  rfl

/-- C4 (amended): for every `division_size` and every `window_size ≤
block_time`, `average` on the empty sequence fails with the "no data"
(not-found) error, which is distinct from any arithmetic error. -/
theorem claim_C4_empty_not_found (ds ws bt : Nat) (h : ws ≤ bt) :
    v2.CompressedDivision.average [] ds ws bt = .error (.stdNotFound "division") := by
  rw [v2.CompressedDivision.average, u64CheckedSub_eq_ok h, exceptBind_ok]

/-- Witness for the amended C4: the repository's own empty-sequence test
configuration (`division_size = 100`, `window_size = 1000`,
`block_time = 1100`). -/
theorem claim_C4_empty_not_found_witness :
    v2.CompressedDivision.average [] 100 1000 1100 = .error (.stdNotFound "division") :=
  claim_C4_empty_not_found 100 1000 1100 (by decide)

/-- C8: for every division `d` and every `t < d.updated_at`, `update(d, t, v)`
fails with the arithmetic-overflow (checked `u64` subtraction) error — it
never wraps and never returns a division. -/
theorem claim_C8_update_backwards_time (d : v2.CompressedDivision) (t v : Nat)
    (h : t < d.updated_at) :
    d.update t v = .error (.overflowError .sub) := by
  rw [v2.CompressedDivision.update, u64CheckedSub_eq_error h, exceptBind_error]

/-- Witness for C8: updating a division last updated at 100ns with the earlier
timestamp 99ns fails with the subtraction-overflow error. -/
theorem claim_C8_update_backwards_time_witness :
    v2.CompressedDivision.update ⟨0, 100, 7, 7⟩ 99 3 = .error (.overflowError .sub) :=
  claim_C8_update_backwards_time ⟨0, 100, 7, 7⟩ 99 3 (by decide)

/-- C10: `average` is deterministic — two runs on equal ordered division
sequences with equal `division_size`, `window_size` and `block_time` produce
identical results, whether success value or error. -/
theorem claim_C10_average_deterministic
    (divs1 divs2 : List v2.CompressedDivision) (ds1 ds2 ws1 ws2 bt1 bt2 : Nat)
    (hdivs : divs1 = divs2) (hds : ds1 = ds2) (hws : ws1 = ws2) (hbt : bt1 = bt2) :
    v2.CompressedDivision.average divs1 ds1 ws1 bt1 =
      v2.CompressedDivision.average divs2 ds2 ws2 bt2 := by
  rw [hdivs, hds, hws, hbt]

/-- Witness for C10 at the concrete scenario of C1. -/
theorem claim_C10_average_deterministic_witness :
    v2.CompressedDivision.average [⟨1100, 1110, 200000000000000000, 1000000000000000000⟩]
        100 1000 1150 =
      v2.CompressedDivision.average [⟨1100, 1110, 200000000000000000, 1000000000000000000⟩]
        100 1000 1150 :=
  claim_C10_average_deterministic _ _ 100 100 1000 1000 1150 1150 rfl rfl rfl rfl

/-- Shared bound: a `u64`-sized count converts to whole-number `Decimal`
atomics within the `Uint128` range. -/
theorem whole_atomics_lt_uint128 {n : Nat} (h : n < uint64Bound) :
    n * decimalFractional < uint128Bound :=
  calc n * decimalFractional < uint64Bound * decimalFractional :=
        (Nat.mul_lt_mul_right decimalFractional_pos).mpr h
    _ ≤ uint128Bound := by norm_num [uint64Bound, decimalFractional, uint128Bound]

/-- C9: the public (non-v2) `CompressedDivision` is a count-based aggregate:
`start(start_time, v)` yields `cumsum = v` and `n = 1`; each successful
`accum(v)` adds `v` to `cumsum` and increments `n` by one while keeping
`start_time`; and `average()` — which takes no time argument at all — returns
`cumsum / n`, the plain arithmetic mean of the recorded values (as `Decimal`
floor division), for every division with a positive in-range count and
in-range cumsum. -/
theorem claim_C9_v1_count_based_mean :
    (∀ t v, CompressedDivision.start t v = ⟨t, v, 1⟩) ∧
    (∀ (d d' : CompressedDivision) (v : Nat), d.accum v = .ok d' →
      d'.start_time = d.start_time ∧ d'.cumsum = d.cumsum + v ∧ d'.n = d.n + 1) ∧
    (∀ d : CompressedDivision, 0 < d.n → d.n < uint64Bound →
      d.cumsum < uint128Bound → d.average = .ok (d.cumsum / d.n)) := by
  refine ⟨fun t v => rfl, fun d d' v h => ?_, fun d hn hnb hc => ?_⟩
  · rw [CompressedDivision.accum] at h
    by_cases h1 : d.cumsum + v < uint128Bound
    · rw [decCheckedAdd_eq_ok h1, exceptBind_ok] at h
      by_cases h2 : d.n + 1 < uint64Bound
      · rw [u64CheckedAdd_eq_ok h2, exceptBind_ok] at h
        injection h with h
        subst h
        exact ⟨rfl, rfl, rfl⟩
      · rw [u64CheckedAdd, if_neg h2, exceptBind_error] at h
        exact absurd h (by simp)
    · rw [decCheckedAdd, if_neg h1, exceptBind_error] at h
      exact absurd h (by simp)
  · have hfa : decFromAtomicsWhole d.n = .ok (d.n * decimalFractional) := by
      simp [decFromAtomicsWhole, whole_atomics_lt_uint128 hnb]
    have hden : d.n * decimalFractional ≠ 0 :=
      Nat.pos_iff_ne_zero.mp (Nat.mul_pos hn decimalFractional_pos)
    have key : d.cumsum * decimalFractional / (d.n * decimalFractional) =
        d.cumsum / d.n :=
      Nat.mul_div_mul_right d.cumsum d.n decimalFractional_pos
    have hres : d.cumsum / d.n < uint128Bound :=
      Nat.lt_of_le_of_lt (Nat.div_le_self d.cumsum d.n) hc
    rw [CompressedDivision.average, hfa, exceptBind_ok, decCheckedDiv,
      decCheckedFromRatio, if_neg hden, key, if_pos hres]

/-- Witness for C9: starting at value 7, one `accum` of 3, and the average of
a division holding `cumsum = 9` (atomics `9 * 10^18`) over 4 samples,
which floors to `2.25`. -/
theorem claim_C9_v1_count_based_mean_witness :
    CompressedDivision.start 0 7 = ⟨0, 7, 1⟩ ∧
    ((⟨0, 7, 1⟩ : CompressedDivision).start_time = 0 ∧
      (⟨0, 10, 2⟩ : CompressedDivision).cumsum = 7 + 3 ∧
      (⟨0, 10, 2⟩ : CompressedDivision).n = 1 + 1) ∧
    CompressedDivision.average ⟨0, 9000000000000000000, 4⟩ =
      .ok (9000000000000000000 / 4) := by
  refine ⟨claim_C9_v1_count_based_mean.1 0 7, ?_, ?_⟩
  · have h := claim_C9_v1_count_based_mean.2.1 ⟨0, 7, 1⟩ ⟨0, 10, 2⟩ 3 (by rfl)
    exact ⟨h.1, h.2.1, h.2.2⟩
  · exact claim_C9_v1_count_based_mean.2.2 ⟨0, 9000000000000000000, 4⟩
      (by decide) (by decide) (by decide)

/-- Shared decomposition of `average` on a non-empty sequence: once the window
start is computed, the result is the window contributions divided by the
elapsed time since `max(window_started_at, first.started_at)`. -/
theorem average_cons (d : v2.CompressedDivision) (rest : List v2.CompressedDivision)
    (ds ws bt : Nat) (hws : ws ≤ bt) :
    v2.CompressedDivision.average (d :: rest) ds ws bt =
      (v2.CompressedDivision.contributions d rest ds (bt - ws) bt) >>= (fun cumsum =>
        (u64CheckedSub bt (max (bt - ws) d.started_at)) >>= (fun total_elapsed_time =>
          (decCheckedFromRatio total_elapsed_time 1) >>= (fun ratio =>
            decCheckedDiv cumsum ratio))) := by
  rw [v2.CompressedDivision.average, u64CheckedSub_eq_ok hws, exceptBind_ok]

/-- Counterexample to C6 as stated: for the single division with
`started_at = updated_at = 5` and a huge `division_size = 2^64 - 1`, a window
of size 0 queried at `block_time = 5` has denominator
`block_time - max(window_started_at, started_at) = 0`, yet `average` fails
with the `u64` addition-overflow error (from `started_at + division_size`),
not with the divide-by-zero error. -/
theorem claim_C6_counterexample :
    5 - max (5 - 0) (v2.CompressedDivision.started_at ⟨5, 5, 0, 0⟩) = 0 ∧
    v2.CompressedDivision.average [⟨5, 5, 0, 0⟩] (2 ^ 64 - 1) 0 5 =
      .error (.overflowError .add) := ⟨rfl, rfl⟩

/-- C6 (amended): for every non-empty division sequence whose window start is
well defined (`window_size ≤ block_time`) and whose contributions compute
successfully, `average` divides by exactly
`block_time - max(window_started_at, first_division.started_at)`, and when
that denominator is zero it fails with the divide-by-zero error rather than
returning any value (an error in the contribution arithmetic itself can
preempt the divide-by-zero error). -/
theorem claim_C6_denominator (d : v2.CompressedDivision)
    (rest : List v2.CompressedDivision) (ds ws bt : Nat)
    (hws : ws ≤ bt) (hbt : bt < uint64Bound) (hs : d.started_at ≤ bt) :
    (∀ c, v2.CompressedDivision.contributions d rest ds (bt - ws) bt = .ok c →
      v2.CompressedDivision.average (d :: rest) ds ws bt =
        decCheckedDiv c ((bt - max (bt - ws) d.started_at) * decimalFractional)) ∧
    (bt - max (bt - ws) d.started_at = 0 →
      ∀ c, v2.CompressedDivision.contributions d rest ds (bt - ws) bt = .ok c →
        v2.CompressedDivision.average (d :: rest) ds ws bt =
          .error .checkedFromRatioDivideByZero) := by
  have hmax : max (bt - ws) d.started_at ≤ bt := Nat.max_le.mpr ⟨Nat.sub_le bt ws, hs⟩
  have htot : bt - max (bt - ws) d.started_at < uint64Bound :=
    Nat.lt_of_le_of_lt (Nat.sub_le bt _) hbt
  constructor
  · intro c hc
    rw [average_cons d rest ds ws bt hws, hc, exceptBind_ok,
      u64CheckedSub_eq_ok hmax, exceptBind_ok,
      decCheckedFromRatio_one_eq_ok htot, exceptBind_ok]
  · intro h0 c hc
    rw [average_cons d rest ds ws bt hws, hc, exceptBind_ok,
      u64CheckedSub_eq_ok hmax, exceptBind_ok,
      decCheckedFromRatio_one_eq_ok htot, exceptBind_ok, h0]
    simp [decCheckedDiv, decCheckedFromRatio]

/-- Witness for the amended C6: the C1 scenario divides its contributions
(`9 * 10^18` atomics) by exactly `1150 - max(150, 1100) = 50`; and a
single instant-old division queried at its own start time fails with the
divide-by-zero error. -/
theorem claim_C6_denominator_witness :
    v2.CompressedDivision.average
        [⟨1100, 1110, 200000000000000000, 1000000000000000000⟩] 100 1000 1150 =
      decCheckedDiv 9000000000000000000
        ((1150 - max (1150 - 1000) 1100) * decimalFractional) ∧
    v2.CompressedDivision.average [⟨100, 100, 0, 0⟩] 50 0 100 =
      .error .checkedFromRatioDivideByZero :=
  ⟨(claim_C6_denominator ⟨1100, 1110, 200000000000000000, 1000000000000000000⟩ []
      100 1000 1150 (by decide) (by decide) (by decide)).1 9000000000000000000 (by rfl),
   (claim_C6_denominator ⟨100, 100, 0, 0⟩ [] 50 0 100
      (by decide) (by decide) (by decide)).2 (by decide) 0 (by rfl)⟩

/-- C7: in `average`'s first-division handling, whenever the cumsum-rescaling
branch is reached (`window_started_at > started_at` and
`remaining_division_size > latest_value_elapsed_time`), if
`window_size ≥ division_size` (the configuration requirement) then the first
division's `updated_at` is strictly greater than its `started_at`, so the
checked division of `cumsum` by `current_cumsum_weight` is never a division
by zero. -/
theorem claim_C7_rescale_branch_no_div_by_zero (d : v2.CompressedDivision)
    (ds ws bt lv : Nat)
    (hcfg : ds ≤ ws) (hws : ws ≤ bt)
    (hadd : d.started_at + ds < uint64Bound)
    (hwin : bt - ws ≤ d.started_at + ds)
    (hgt : bt - ws > d.started_at)
    (hlv : d.latest_value_elapsed_time ds bt = .ok lv)
    (hbranch : min (d.started_at + ds - (bt - ws)) ds > lv) :
    d.started_at < d.updated_at ∧
    decCheckedFromRatio (d.updated_at - d.started_at) 1 =
      .ok ((d.updated_at - d.started_at) * decimalFractional) ∧
    decCheckedDiv d.cumsum ((d.updated_at - d.started_at) * decimalFractional) ≠
      .error .checkedFromRatioDivideByZero := by
  have hbt_gt : bt > d.started_at + ds := by omega
  rw [v2.CompressedDivision.latest_value_elapsed_time,
    u64CheckedAdd_eq_ok hadd, exceptBind_ok, if_pos hbt_gt] at hlv
  by_cases hub : d.updated_at ≤ d.started_at + ds
  · rw [u64CheckedSub_eq_ok hub] at hlv
    injection hlv with hlv
    have hsu : d.started_at < d.updated_at := by omega
    have hden : (d.updated_at - d.started_at) * decimalFractional ≠ 0 :=
      Nat.pos_iff_ne_zero.mp (Nat.mul_pos (by omega) decimalFractional_pos)
    refine ⟨hsu, decCheckedFromRatio_one_eq_ok (by omega), ?_⟩
    rw [decCheckedDiv, decCheckedFromRatio, if_neg hden]
    split <;> simp
  · rw [u64CheckedSub_eq_error (by omega)] at hlv
    exact absurd hlv (by simp)

/-- Witness for C7: the division `{started_at = 0, updated_at = 60}` with
`division_size = window_size = 100` queried at `block_time = 150` reaches the
rescaling branch (`remaining = 50 > 40 = latest_value_elapsed_time`) and its
cumsum weight `60` is nonzero. -/
theorem claim_C7_rescale_branch_no_div_by_zero_witness :
    (0 : Nat) < 60 ∧
    decCheckedFromRatio (60 - 0) 1 = .ok ((60 - 0) * decimalFractional) ∧
    decCheckedDiv 0 ((60 - 0) * decimalFractional) ≠
      .error .checkedFromRatioDivideByZero := by
  have h := claim_C7_rescale_branch_no_div_by_zero ⟨0, 60, 0, 0⟩ 100 100 150 40
    (by decide) (by decide) (by decide) (by decide) (by decide) (by rfl) (by decide)
  exact h

/-- The accumulation loop over an empty tail returns the running cumsum. -/
theorem restCumsum_nil (ds bt c : Nat) :
    v2.CompressedDivision.restCumsum [] ds bt c = .ok c := rfl

/-- Shared lemma: when the window start does not cut into the first division
(`window_started_at ≤ started_at`) and the query time is the division's own
`updated_at` (strictly inside the bucket span), the first division contributes
exactly its stored `cumsum`. -/
theorem firstDivisionCumsum_covered (s u v P ds wsa : Nat)
    (hadd : s + ds < uint64Bound) (hwsa : wsa ≤ s) (hsu : s < u) (hud : u ≤ s + ds)
    (hP : P < uint128Bound) :
    v2.CompressedDivision.firstDivisionCumsum ⟨s, u, v, P⟩ ds wsa u = .ok P := by
  have hlv : v2.CompressedDivision.latest_value_elapsed_time ⟨s, u, v, P⟩ ds u = .ok 0 := by
    simp only [v2.CompressedDivision.latest_value_elapsed_time]
    rw [u64CheckedAdd_eq_ok hadd, exceptBind_ok, if_neg (by omega : ¬ u > s + ds),
      u64CheckedSub_eq_ok (Nat.le_refl u), Nat.sub_self]
  have hwlv : v2.CompressedDivision.weighted_latest_value ⟨s, u, v, P⟩ ds u = .ok 0 := by
    simp only [v2.CompressedDivision.weighted_latest_value]
    rw [hlv, exceptBind_ok,
      decCheckedFromRatio_one_eq_ok (by norm_num [uint64Bound] : (0 : Nat) < uint64Bound),
      exceptBind_ok,
      decCheckedMul_whole_eq_ok (by norm_num [uint128Bound] : v * 0 < uint128Bound),
      Nat.mul_zero]
  simp only [v2.CompressedDivision.firstDivisionCumsum]
  rw [u64CheckedAdd_eq_ok hadd, exceptBind_ok,
    u64CheckedSub_eq_ok (by omega : wsa ≤ s + ds), exceptBind_ok, hlv, exceptBind_ok,
    Nat.min_eq_right (by omega : ds ≤ s + ds - wsa),
    if_pos (by omega : ds > 0),
    u64CheckedSub_eq_ok (Nat.le_of_lt hsu), exceptBind_ok,
    if_neg (by omega : ¬ wsa > s), exceptBind_ok,
    hwlv, exceptBind_ok, decCheckedAdd_eq_ok (by omega : P + 0 < uint128Bound),
    Nat.add_zero]

/-- Counterexample to C5 as stated: the division constructed with
`started_at = updated_at = 100` (so `cumsum = 0`), with `division_size = 100`,
`window_size = 50` (window start `50 ≤ 100 = started_at`, so the window covers
the whole bucket) queried at `block_time = updated_at = 100`, makes `average`
fail with the divide-by-zero error instead of returning the constructor's
`prev_value = 10%`. -/
theorem claim_C5_counterexample :
    (v2.CompressedDivision.new 100 100 200000000000000000 100000000000000000).bind
      (fun d => v2.CompressedDivision.average [d] 100 50 100) =
      .error .checkedFromRatioDivideByZero := by
  rfl

/-- C5 (amended): for a sequence containing the single division
`new(started_at, updated_at, value, prev_value)` with `started_at <
updated_at ≤ started_at + division_size` (a strictly positive, in-bucket
elapsed time — `started_at = updated_at` instead hits the divide-by-zero
error), `average` queried at `block_time = updated_at` with any window
covering the whole bucket (`window_size ≤ block_time` and
`block_time - window_size ≤ started_at`) returns exactly the `prev_value`
supplied to the constructor, independent of `window_size`; the `u64` bucket
bound and the `Decimal` range of `prev_value * elapsed` are assumed. -/
theorem claim_C5_single_division_average (s u ds ws p v : Nat)
    (hsu : s < u) (hud : u ≤ s + ds) (hds : s + ds < uint64Bound)
    (hws : ws ≤ u) (hwin : u - ws ≤ s) (hcs : p * (u - s) < uint128Bound) :
    (v2.CompressedDivision.new s u v p) >>=
      (fun d => v2.CompressedDivision.average [d] ds ws u) = .ok p := by
  have hu : u < uint64Bound := by omega
  have hp : p < uint128Bound := by
    have : p ≤ p * (u - s) := Nat.le_mul_of_pos_right p (by omega)
    omega
  rw [new_eq_ok s u v p (Nat.le_of_lt hsu) hu hcs, exceptBind_ok,
    average_cons _ [] ds ws u hws]
  rw [show v2.CompressedDivision.contributions ⟨s, u, v, p * (u - s)⟩ [] ds (u - ws) u =
      (v2.CompressedDivision.firstDivisionCumsum ⟨s, u, v, p * (u - s)⟩ ds (u - ws) u) >>=
        (fun c => v2.CompressedDivision.restCumsum [] ds u c) from rfl,
    firstDivisionCumsum_covered s u v (p * (u - s)) ds (u - ws) hds hwin hsu hud hcs,
    exceptBind_ok, restCumsum_nil, exceptBind_ok]
  rw [show max (u - ws) (v2.CompressedDivision.started_at ⟨s, u, v, p * (u - s)⟩) =
      s from Nat.max_eq_right hwin]
  rw [u64CheckedSub_eq_ok (Nat.le_of_lt hsu), exceptBind_ok,
    decCheckedFromRatio_one_eq_ok (by omega : u - s < uint64Bound), exceptBind_ok,
    decCheckedDiv, decCheckedFromRatio_mul_cancel (by omega : 0 < u - s) hp]

/-- Witness for the amended C5: the repository's own single-division test —
constructed at 1100ns/1110ns with `prev_value = 10%`, queried at
`block_time = 1110 = updated_at` with `window_size = 1000` — returns `10%`. -/
theorem claim_C5_single_division_average_witness :
    (v2.CompressedDivision.new 1100 1110 200000000000000000 100000000000000000) >>=
      (fun d => v2.CompressedDivision.average [d] 100 1000 1110) =
      .ok 100000000000000000 :=
  claim_C5_single_division_average 1100 1110 100 1000 100000000000000000
    200000000000000000 (by decide) (by decide) (by decide) (by decide)
    (by decide) (by decide)
